import Mathlib

/-!
Shallow embedding of the go-pac repository (package `pac`): the PAC helper
functions defined in `retrieve_pacurl_test.go` (weekday/date/time range
matching and their argument parsers), the directive parser `ProxyString.Parse`,
the loader's size enforcement (`readPACScript`, `NewPACProxy`), the config
normalization (`normalizePACProxyConfig`), the timeout protocol
(`evalWithTimeout`, `normalizePACError`), and a small interleaving model of
the Evaluator's mutual-exclusion discipline.

Go strings are modelled as Lean `String` values; the Go standard-library
string helpers used by the source (`strings.TrimSpace`, `strings.ToUpper`,
`strings.EqualFold`, `strconv.Atoi`, slicing `s[:3]`) are re-implemented
below for the ASCII inputs the PAC helpers deal in.  Go `int`/`int64` become
`Int`; no helper in this code relies on machine-width overflow.
-/

/-- Character class trimmed by Go `strings.TrimSpace` (ASCII fragment of
Unicode White_Space, which is all the PAC token grammar uses). -/
def goIsSpace (c : Char) : Bool :=
  c = ' ' || c = '\t' || c = '\n' || c = '\x0b' || c = '\x0c' || c = '\r'

/-- Go `strings.TrimSpace`: drop leading and trailing whitespace. -/
def goTrim (s : String) : String :=
  ⟨((s.data.dropWhile goIsSpace).reverse.dropWhile goIsSpace).reverse⟩

/-- ASCII uppercase of one character (Go `strings.ToUpper` on ASCII input). -/
def goUpperChar (c : Char) : Char :=
  if 'a' ≤ c ∧ c ≤ 'z' then Char.ofNat (c.toNat - 32) else c

/-- Go `strings.ToUpper` (ASCII fragment). -/
def goToUpper (s : String) : String :=
  ⟨s.data.map goUpperChar⟩

/-- Go slicing `if len(s) >= 3 { s = s[:3] }` as done by `parseWeekdayArg`
and `parseDateArg` before the name-table lookup. -/
def goTruncate3 (s : String) : String :=
  if s.data.length ≥ 3 then ⟨s.data.take 3⟩ else s

/-- Go `strings.EqualFold` (ASCII fragment): case-insensitive equality. -/
def goEqualFold (a b : String) : Bool :=
  goToUpper a == goToUpper b

/-- Go `strconv.Atoi`: optional sign followed by one or more decimal digits,
nothing else; `none` models the error return. -/
def goAtoi (s : String) : Option Int :=
  let (sign, rest) :=
    match s.data with
    | '+' :: t => ((1 : Int), t)
    | '-' :: t => ((-1 : Int), t)
    | t => ((1 : Int), t)
  if rest.isEmpty then none
  else if rest.all (fun c => '0' ≤ c ∧ c ≤ '9') then
    some (sign * rest.foldl (fun acc c => 10 * acc + ((c.toNat : Int) - 48)) 0)
  else none

/-- A goja value as seen by the PAC helper bindings: `vInt` covers the
integral numeric exports (`int`, `int32`, `int64` and whole floats), `vStr`
a string export, `vNum` a non-integral numeric export whose display text is
carried for `String()` conversions. -/
inductive JSValue where
  | vInt (n : Int)
  | vStr (s : String)
  | vNum (s : String)
deriving DecidableEq, Repr

/-- The goja `Value.String()` conversion for the shapes modelled here. -/
def jsToString : JSValue → String
  | .vInt n => toString n
  | .vStr s => s
  | .vNum s => s

/-- Source `parseIntArg`: integral exports pass through, strings go through
`strconv.Atoi(strings.TrimSpace(val))`, non-integral floats fail. -/
def parseIntArg : JSValue → Option Int
  | .vInt n => some n
  | .vStr s => goAtoi (goTrim s)
  | .vNum _ => none

/-- Source `isGMTArg`: the trimmed string form equals `GMT` case-insensitively. -/
def isGMTArg (v : JSValue) : Bool :=
  goEqualFold (goTrim (jsToString v)) "GMT"

/-- Reference timezone selected by a trailing GMT argument. -/
inductive PACLoc where
  | localTime
  | utcTime
deriving DecidableEq, Repr

/-- Source `splitArgsAndLocation`: strip a trailing GMT token and select UTC,
otherwise keep the arguments and the local timezone. -/
def splitArgsAndLocation (args : List JSValue) : List JSValue × PACLoc :=
  match args.getLast? with
  | none => (args, PACLoc.localTime)
  | some v =>
      if isGMTArg v then (args.dropLast, PACLoc.utcTime)
      else (args, PACLoc.localTime)

/-- Source `weekdayNames` map (Go `time.Weekday` numbering, Sunday = 0). -/
def weekdayNames : List (String × Int) :=
  [("SUN", 0), ("MON", 1), ("TUE", 2), ("WED", 3), ("THU", 4), ("FRI", 5), ("SAT", 6)]

/-- Source `monthNames` map (Go `time.Month` numbering, January = 1). -/
def monthNames : List (String × Int) :=
  [("JAN", 1), ("FEB", 2), ("MAR", 3), ("APR", 4), ("MAY", 5), ("JUN", 6),
   ("JUL", 7), ("AUG", 8), ("SEP", 9), ("OCT", 10), ("NOV", 11), ("DEC", 12)]

/-- The key used for the name-table lookups:
`s = strings.ToUpper(strings.TrimSpace(s)); if len(s) >= 3 { s = s[:3] }`. -/
def nameKey (s : String) : String :=
  goTruncate3 (goToUpper (goTrim s))

/-- The numeric fallback inside source `parseWeekdayArg`:
`parseIntArg` then the bound check `n >= 0 && n <= 6`. -/
def weekdayIntFallback (v : JSValue) : Option Int :=
  match parseIntArg v with
  | some n => if 0 ≤ n ∧ n ≤ 6 then some n else none
  | none => none

/-- Source `parseWeekdayArg`: a string export first tries the three-letter
weekday table on `nameKey`, anything else (or a failed lookup) falls back to
the 0–6 numeric form. -/
def parseWeekdayArg : JSValue → Option Int
  | .vStr s =>
      match weekdayNames.lookup (nameKey s) with
      | some d => some d
      | none => weekdayIntFallback (.vStr s)
  | v => weekdayIntFallback v

/-- Classification tag of one `dateRange` argument (source `dateArgKind`). -/
inductive DateArgKind where
  | day
  | month
  | year
deriving DecidableEq, Repr

/-- Source `dateArg`. -/
structure DateArg where
  kind : DateArgKind
  value : Int
deriving DecidableEq, Repr

/-- Source `normalizeYear`: two-digit years map into the 1900s. -/
def normalizeYear (year : Int) : Int :=
  if 0 ≤ year ∧ year < 100 then 1900 + year else year

/-- The integer classification inside source `parseDateArg`: a failed or
non-positive integer rejects, values up to 31 are days, larger values are
years after `normalizeYear`. -/
def dateIntFallback (v : JSValue) : Option DateArg :=
  match parseIntArg v with
  | none => none
  | some n =>
      if n ≤ 0 then none
      else if n ≤ 31 then some ⟨DateArgKind.day, n⟩
      else some ⟨DateArgKind.year, normalizeYear n⟩

/-- Source `parseDateArg`: a string export first tries the three-letter month
table on `nameKey`, anything else falls to the integer classification. -/
def parseDateArg : JSValue → Option DateArg
  | .vStr s =>
      match monthNames.lookup (nameKey s) with
      | some m => some ⟨DateArgKind.month, m⟩
      | none => dateIntFallback (.vStr s)
  | v => dateIntFallback v

/-- Source `dayRangeMatches`. -/
def dayRangeMatches (current start endV : Int) : Bool :=
  if start ≤ endV then decide (current ≥ start ∧ current ≤ endV)
  else decide (current ≥ start ∨ current ≤ endV)

/-- Source `monthRangeMatches`. -/
def monthRangeMatches (current start endV : Int) : Bool :=
  if start ≤ endV then decide (current ≥ start ∧ current ≤ endV)
  else decide (current ≥ start ∨ current ≤ endV)

/-- Source `yearRangeMatches`. -/
def yearRangeMatches (current start endV : Int) : Bool :=
  if start ≤ endV then decide (current ≥ start ∧ current ≤ endV)
  else decide (current ≥ start ∨ current ≤ endV)

/-- Source `timeRangeCompare` (seconds since midnight). -/
def timeRangeCompare (currentSeconds startSeconds endSeconds : Int) : Bool :=
  if startSeconds ≤ endSeconds then
    decide (currentSeconds ≥ startSeconds ∧ currentSeconds ≤ endSeconds)
  else decide (currentSeconds ≥ startSeconds ∨ currentSeconds ≤ endSeconds)

/-- Source `validHour`. -/
def validHour (hour : Int) : Bool :=
  decide (0 ≤ hour ∧ hour ≤ 23)

/-- Source `validTime`. -/
def validTime (hour minute second : Int) : Bool :=
  validHour hour && decide (0 ≤ minute ∧ minute ≤ 59) && decide (0 ≤ second ∧ second ≤ 59)

/-- The body of the source `weekdayRange` binding after
`splitArgsAndLocation`, with the sampled weekday passed in as `nowWd`
(Go `time.Weekday`, 0–6): zero or more than two arguments reject, one
argument is an equality test, two arguments form a possibly-wrapping range. -/
def weekdayRangeMatches (args : List JSValue) (nowWd : Int) : Bool :=
  match args with
  | [] => false
  | [a] =>
      match parseWeekdayArg a with
      | some w1 => decide (nowWd = w1)
      | none => false
  | [a, b] =>
      match parseWeekdayArg a with
      | none => false
      | some w1 =>
          match parseWeekdayArg b with
          | none => false
          | some w2 =>
              if w1 ≤ w2 then decide (nowWd ≥ w1 ∧ nowWd ≤ w2)
              else decide (nowWd ≥ w1 ∨ nowWd ≤ w2)
  | _ => false

/-- Clock part of the sampled `now` used by `timeRangeMatches`
(`now.Hour()`, `now.Minute()`, `now.Second()`). -/
structure TimeOfDay where
  hour : Int
  minute : Int
  second : Int
deriving DecidableEq, Repr

/-- Source expression `now.Hour()*3600 + now.Minute()*60 + now.Second()`. -/
def nowSecondsOf (t : TimeOfDay) : Int :=
  t.hour * 3600 + t.minute * 60 + t.second

/-- Source `timeRangeMatches`: parse every argument as an integer (any
failure rejects), then dispatch on the argument count exactly as the Go
switch does. -/
def timeRangeMatches (args : List JSValue) (now : TimeOfDay) : Bool :=
  if args.isEmpty then false
  else
    match args.mapM parseIntArg with
    | none => false
    | some values =>
        let nowSeconds := nowSecondsOf now
        match values with
        | [h] =>
            if validHour h then decide (now.hour = h) else false
        | [h1, h2] =>
            if validHour h1 && validHour h2 then
              timeRangeCompare nowSeconds (h1 * 3600) (h2 * 3600 + 3599)
            else false
        | [h, m, s] =>
            if validTime h m s then
              decide (now.hour = h ∧ now.minute = m ∧ now.second = s)
            else false
        | [h1, m1, h2, m2] =>
            if validTime h1 m1 0 && validTime h2 m2 0 then
              timeRangeCompare nowSeconds (h1 * 3600 + m1 * 60) (h2 * 3600 + m2 * 60 + 59)
            else false
        | [h1, m1, s1, h2, m2, s2] =>
            if validTime h1 m1 s1 && validTime h2 m2 s2 then
              timeRangeCompare nowSeconds (h1 * 3600 + m1 * 60 + s1) (h2 * 3600 + m2 * 60 + s2)
            else false
        | _ => false

/-- The source `timeRange` binding after argument splitting: strip a trailing
GMT marker, sample `now` in the selected timezone, reject an empty list. -/
def timeRangeBinding (callArgs : List JSValue) (nowLocal nowUTC : TimeOfDay) : Bool :=
  let split := splitArgsAndLocation callArgs
  if split.1.isEmpty then false
  else
    timeRangeMatches split.1
      (match split.2 with
       | PACLoc.localTime => nowLocal
       | PACLoc.utcTime => nowUTC)

/-!
Proleptic Gregorian day arithmetic backing the model of Go `time.Date`,
`Time.Year/Month/Day`, `Time.Before/After` and `Time.AddDate` on midnight
values in a single location.  A date value is its day number relative to
1970-01-01 (what Go stores, up to the seconds scale).  The conversions are
the standard civil-from-days / days-from-civil algorithms, written with
`Int.ediv`/`Int.emod` (floor semantics for the positive divisors used here),
which agree with Go's normalizing `time.Date` for every argument. -/

/-- Day number of the civil date `y-m-d` (month 1–12, day may be any integer,
counted from 1970-01-01). -/
def daysFromCivil (y m d : Int) : Int :=
  let y1 := if m ≤ 2 then y - 1 else y
  let era := Int.ediv y1 400
  let yoe := y1 - era * 400
  let mp := Int.emod (m + 9) 12
  let doy := Int.ediv (153 * mp + 2) 5 + d - 1
  let doe := yoe * 365 + Int.ediv yoe 4 - Int.ediv yoe 100 + doy
  era * 146097 + doe - 719468

/-- Civil date `(year, month, day)` of a day number. -/
def civilFromDays (z0 : Int) : Int × Int × Int :=
  let z := z0 + 719468
  let era := Int.ediv z 146097
  let doe := z - era * 146097
  let yoe := Int.ediv (doe - Int.ediv doe 1460 + Int.ediv doe 36524 - Int.ediv doe 146096) 365
  let y := yoe + era * 400
  let doy := doe - (365 * yoe + Int.ediv yoe 4 - Int.ediv yoe 100)
  let mp := Int.ediv (5 * doy + 2) 153
  let d := doy - Int.ediv (153 * mp + 2) 5 + 1
  let m := mp + (if mp < 10 then (3 : Int) else -9)
  (if m ≤ 2 then y + 1 else y, m, d)

/-- Go `time.Date(y, m, d, 0, 0, 0, 0, loc)` as a day number: the month is
first normalized into 1–12 (floor division, as Go's `norm` does), the day
offsets linearly. -/
def goDateOrd (y m d : Int) : Int :=
  daysFromCivil (y + Int.ediv (m - 1) 12) (Int.emod (m - 1) 12 + 1) d

/-- Go `Time.Year()` of a midnight date value. -/
def ordYear (t : Int) : Int := (civilFromDays t).1

/-- Go `Time.Month()` of a midnight date value. -/
def ordMonth (t : Int) : Int := (civilFromDays t).2.1

/-- Go `Time.Day()` of a midnight date value. -/
def ordDay (t : Int) : Int := (civilFromDays t).2.2

/-- Source `makeDate`: reject a non-positive day, build the date, and demand
that the round trip reproduces year, month and day (so day=31 in a 30-day
month is rejected rather than normalized into the next month). -/
def makeDate (year month day : Int) : Option Int :=
  if day ≤ 0 then none
  else
    let t := goDateOrd year month day
    if ordYear t = year ∧ ordMonth t = month ∧ ordDay t = day then some t else none

/-- Source `lastDayOfMonth`: `time.Date(year, month+1, 0, ...).Day()`. -/
def lastDayOfMonth (year month : Int) : Int :=
  ordDay (goDateOrd year (month + 1) 0)

/-- Go `Time.AddDate(years, 0, 0)` on a midnight date value. -/
def addDateYears (t years : Int) : Int :=
  goDateOrd (ordYear t + years) (ordMonth t) (ordDay t)

/-- Source `dateRangeCompare`: plain inclusive comparison unless wrapping is
allowed and the end precedes the start, in which case the start moves back a
year or the end moves forward a year depending on which side of the start
`current` falls. -/
def dateRangeCompare (current start endV : Int) (allowWrap : Bool) : Bool :=
  if !allowWrap || !(endV < start) then decide (start ≤ current ∧ current ≤ endV)
  else if current < start then decide (addDateYears start (-1) ≤ current ∧ current ≤ endV)
  else decide (start ≤ current ∧ current ≤ addDateYears endV 1)

/-- Calendar part of the sampled `now` used by `dateRangeMatches`
(`now.Year()`, `now.Month()`, `now.Day()`). -/
structure GoDate where
  year : Int
  month : Int
  day : Int
deriving DecidableEq, Repr

/-- Source `dateRangeMatches`: parse every argument (any failure rejects),
then dispatch on the exact argument-kind combination; anything outside the
recognized set rejects. -/
def dateRangeMatches (args : List JSValue) (now : GoDate) : Bool :=
  match args.mapM parseDateArg with
  | none => false
  | some parsed =>
      let current := goDateOrd now.year now.month now.day
      match parsed with
      | [a] =>
          match a.kind with
          | DateArgKind.day => decide (now.day = a.value)
          | DateArgKind.month => decide (now.month = a.value)
          | DateArgKind.year => decide (now.year = a.value)
      | [a, b] =>
          if a.kind = DateArgKind.day ∧ b.kind = DateArgKind.day then
            dayRangeMatches now.day a.value b.value
          else if a.kind = DateArgKind.month ∧ b.kind = DateArgKind.month then
            monthRangeMatches now.month a.value b.value
          else if a.kind = DateArgKind.year ∧ b.kind = DateArgKind.year then
            yearRangeMatches now.year a.value b.value
          else if a.kind = DateArgKind.day ∧ b.kind = DateArgKind.month then
            decide (now.day = a.value ∧ now.month = b.value)
          else if a.kind = DateArgKind.month ∧ b.kind = DateArgKind.year then
            decide (now.month = a.value ∧ now.year = b.value)
          else false
      | [a, b, c] =>
          if a.kind = DateArgKind.day ∧ b.kind = DateArgKind.month ∧ c.kind = DateArgKind.year then
            decide (now.day = a.value ∧ now.month = b.value ∧ now.year = c.value)
          else false
      | [a, b, c, d] =>
          if a.kind = DateArgKind.day ∧ b.kind = DateArgKind.month ∧
             c.kind = DateArgKind.day ∧ d.kind = DateArgKind.month then
            match makeDate now.year b.value a.value with
            | none => false
            | some start =>
                match makeDate now.year d.value c.value with
                | none => false
                | some endV => dateRangeCompare current start endV true
          else if a.kind = DateArgKind.month ∧ b.kind = DateArgKind.year ∧
                  c.kind = DateArgKind.month ∧ d.kind = DateArgKind.year then
            match makeDate b.value a.value 1 with
            | none => false
            | some start =>
                match makeDate d.value c.value (lastDayOfMonth d.value c.value) with
                | none => false
                | some endV => dateRangeCompare current start endV false
          else false
      | [a, b, c, d, e] =>
          if a.kind = DateArgKind.day ∧ b.kind = DateArgKind.month ∧
             c.kind = DateArgKind.year ∧ d.kind = DateArgKind.day ∧
             e.kind = DateArgKind.month then
            match makeDate c.value b.value a.value with
            | none => false
            | some start =>
                match makeDate c.value e.value d.value with
                | none => false
                | some endV => dateRangeCompare current start endV true
          else false
      | [a, b, c, d, e, f] =>
          if a.kind = DateArgKind.day ∧ b.kind = DateArgKind.month ∧
             c.kind = DateArgKind.year ∧ d.kind = DateArgKind.day ∧
             e.kind = DateArgKind.month ∧ f.kind = DateArgKind.year then
            match makeDate c.value b.value a.value with
            | none => false
            | some start =>
                match makeDate f.value e.value d.value with
                | none => false
                | some endV => dateRangeCompare current start endV false
          else false
      | _ => false

/-!
Directive parser (`ProxyString.Parse`).  `url.Parse` is modelled as
returning the URL text itself: on the inputs this parser builds
(`"http://" + rest`, `"socks5://" + rest`) it fails only for control
characters, a path no claim exercises. -/

/-- Go `strings.HasPrefix` over the character-list view. -/
def strHasPre (s p : String) : Bool :=
  p.data.isPrefixOf s.data

/-- Go `strings.TrimPrefix`: drop `p` from the front of `s` when present. -/
def stripPre (s p : String) : String :=
  if strHasPre s p then ⟨s.data.drop p.data.length⟩ else s

/-- Go `strings.Split(s, ";")` over the character-list view. -/
def splitSemi : List Char → List (List Char)
  | [] => [[]]
  | c :: rest =>
      match splitSemi rest with
      | [] => if c = ';' then [[], []] else [[c]]
      | h :: t => if c = ';' then [] :: h :: t else (c :: h) :: t

/-- Outcome of `ProxyString.Parse`: `direct` is the `(nil, nil)` return,
`proxyURL u` a successfully parsed endpoint (carried as its URL text),
`noValid` the `ErrNoValidProxy` return. -/
inductive ParseResult where
  | direct
  | proxyURL (u : String)
  | noValid
deriving DecidableEq, Repr

/-- The token loop of source `ProxyString.Parse`: trim each token, take the
first `DIRECT`/`PROXY`/`SOCKS` prefix hit, otherwise fall through to the
next token, and report `noValid` when the list is exhausted. -/
def parseTokens : List String → ParseResult
  | [] => ParseResult.noValid
  | tok :: rest =>
      let t := goTrim tok
      if strHasPre t "DIRECT" then ParseResult.direct
      else if strHasPre t "PROXY" then ParseResult.proxyURL ("http://" ++ stripPre t "PROXY ")
      else if strHasPre t "SOCKS" then ParseResult.proxyURL ("socks5://" ++ stripPre t "SOCKS ")
      else parseTokens rest

/-- Source `ProxyString.Parse`. -/
def proxyStringParse (ps : String) : ParseResult :=
  parseTokens ((splitSemi ps.data).map (fun cs => String.mk cs))

/-- Token classification exactly as the claim words it: the recognized
prefixes are `DIRECT`, `PROXY ` and `SOCKS ` (the latter two with a
trailing space), and the remainder after the six-character prefix is
appended to the scheme. -/
def claimTokenClass (t : String) : Option ParseResult :=
  if strHasPre t "DIRECT" then some ParseResult.direct
  else if strHasPre t "PROXY " then some (ParseResult.proxyURL ("http://" ++ ⟨t.data.drop 6⟩))
  else if strHasPre t "SOCKS " then some (ParseResult.proxyURL ("socks5://" ++ ⟨t.data.drop 6⟩))
  else none

/-- The whole parse as the claim words it: first recognized token wins,
`noValid` when none is recognized. -/
def proxyStringParseClaim (ps : String) : ParseResult :=
  match ((splitSemi ps.data).map (fun cs => String.mk cs)).findSome?
      (fun tok => claimTokenClass (goTrim tok)) with
  | some r => r
  | none => ParseResult.noValid

/-- Token classification with the prefixes the source actually tests
(`PROXY`/`SOCKS` without the trailing space; the remainder strips the
space-including prefix only when it is present). -/
def amendedTokenClass (t : String) : Option ParseResult :=
  if strHasPre t "DIRECT" then some ParseResult.direct
  else if strHasPre t "PROXY" then some (ParseResult.proxyURL ("http://" ++ stripPre t "PROXY "))
  else if strHasPre t "SOCKS" then some (ParseResult.proxyURL ("socks5://" ++ stripPre t "SOCKS "))
  else none

/-!
Config normalization (`normalizePACProxyConfig`).  Durations are integers in
nanoseconds (Go `time.Duration`); sizes are integers in bytes. -/

/-- The `http.Client` as far as this package configures it. -/
structure GoHTTPClient where
  timeout : Int
deriving DecidableEq, Repr

/-- Source `PACProxyConfig` (the logger and hook fields carry no
normalization behaviour and are omitted). -/
structure PACProxyConfig where
  client : Option GoHTTPClient
  maxScriptSize : Int
  scriptTimeout : Int
  dnsLookupTimeout : Int
  httpTimeout : Int
deriving DecidableEq, Repr

/-- Source constant `defaultHTTPTimeout = 10 * time.Second`. -/
def defaultHTTPTimeout : Int := 10 * 1000000000

/-- Source constant `defaultScriptTimeout = 5 * time.Second`. -/
def defaultScriptTimeout : Int := 5 * 1000000000

/-- Source constant `defaultDNSLookupTimeout = 2 * time.Second`. -/
def defaultDNSLookupTimeout : Int := 2 * 1000000000

/-- Source constant `defaultMaxScriptSize = 1 << 20` (1 MiB). -/
def defaultMaxScriptSize : Int := 1048576

/-- The Go zero value `PACProxyConfig{}`, used when the config pointer is nil. -/
def zeroPACProxyConfig : PACProxyConfig :=
  ⟨none, 0, 0, 0, 0⟩

/-- Source `normalizePACProxyConfig`: a nil pointer becomes the zero struct,
then each numeric option independently maps zero to its default and a
negative value to zero (the disabled state), and a nil client is replaced by
one carrying the normalized HTTP timeout. -/
def normalizePACProxyConfig (config : Option PACProxyConfig) : PACProxyConfig :=
  let cfg := match config with
    | none => zeroPACProxyConfig
    | some c => c
  let cfg := { cfg with httpTimeout :=
    if cfg.httpTimeout = 0 then defaultHTTPTimeout
    else if cfg.httpTimeout < 0 then 0 else cfg.httpTimeout }
  let cfg := { cfg with scriptTimeout :=
    if cfg.scriptTimeout = 0 then defaultScriptTimeout
    else if cfg.scriptTimeout < 0 then 0 else cfg.scriptTimeout }
  let cfg := { cfg with dnsLookupTimeout :=
    if cfg.dnsLookupTimeout = 0 then defaultDNSLookupTimeout
    else if cfg.dnsLookupTimeout < 0 then 0 else cfg.dnsLookupTimeout }
  let cfg := { cfg with maxScriptSize :=
    if cfg.maxScriptSize = 0 then defaultMaxScriptSize
    else if cfg.maxScriptSize < 0 then 0 else cfg.maxScriptSize }
  let cfg := { cfg with client :=
    match cfg.client with
    | none => some ⟨cfg.httpTimeout⟩
    | some c => some c }
  cfg

/-!
Error values and the timeout protocol (`evalWithTimeout`,
`normalizePACError`).  `wrapMsg outer inner` models
`fmt.Errorf("%w: %v", outer, inner)`: `errors.Unwrap` reaches `outer`, while
`inner` survives only in the message text.  `interruptedBy v` models a
`*goja.InterruptedError` whose `Value()` is `v`; it has no unwrap method. -/

/-- Go error values this package builds. -/
inductive GoError where
  | fetchPAC
  | readPAC
  | executePAC
  | evaluatePAC
  | convertResult
  | scriptTimeout
  | scriptTooLarge
  | noValidProxy
  | wrapMsg (outer inner : GoError)
  | interruptedBy (v : GoError)
deriving DecidableEq, Repr

/-- Go `errors.Is`: compare along the `Unwrap` chain; only `wrapMsg` unwraps
(to its `%w` operand). -/
def errorsIs (err target : GoError) : Bool :=
  err == target ||
    match err with
    | GoError.wrapMsg outer _ => errorsIs outer target
    | _ => false

/-- Go `errors.As(err, &interrupted)` for `*goja.InterruptedError`: the first
interrupted error along the `Unwrap` chain, with its carried value. -/
def errorsAsInterrupted : GoError → Option GoError
  | GoError.interruptedBy v => some (GoError.interruptedBy v)
  | GoError.wrapMsg outer _ => errorsAsInterrupted outer
  | _ => none

/-- The carried `Value()` of the interrupted error found by `errors.As`. -/
def interruptedValue : GoError → Option GoError
  | GoError.interruptedBy v => some v
  | GoError.wrapMsg outer _ => interruptedValue outer
  | _ => none

/-- Source `normalizePACError`: a nil error passes through; an error whose
unwrap chain holds an interrupted error with value `ErrPACScriptTimeout`
becomes exactly `ErrPACScriptTimeout`; everything else passes through. -/
def normalizePACError : Option GoError → Option GoError
  | none => none
  | some err =>
      match interruptedValue err with
      | some v => if v = GoError.scriptTimeout then some GoError.scriptTimeout else some err
      | none => some err

/-- The interleavings `evalWithTimeout` can observe, reduced to when the
worker's result (its error part; values pass through untouched) becomes
visible: before the timer, at the non-blocking re-check after the timer, or
only after `Interrupt(ErrPACScriptTimeout)` has been issued. -/
structure EvalSchedule where
  resultBeforeTimer : Option (Option GoError)
  resultAtRecheck : Option (Option GoError)
  finalResult : Option GoError
deriving DecidableEq, Repr

/-- Error outcome of source `evalWithTimeout` (the `scriptTimeout > 0` path)
under a given schedule: a result seen before the timer or at the re-check is
returned normalized; otherwise the interpreter is interrupted with
`ErrPACScriptTimeout`, the worker's eventual result is awaited, a nil error
is replaced by `ErrPACScriptTimeout`, and the outcome is normalized. -/
def evalWithTimeoutErr (sched : EvalSchedule) : Option GoError :=
  match sched.resultBeforeTimer with
  | some e => normalizePACError e
  | none =>
      match sched.resultAtRecheck with
      | some e => normalizePACError e
      | none =>
          let e := match sched.finalResult with
            | none => some GoError.scriptTimeout
            | some x => some x
          normalizePACError e

/-- How the `FindProxyForURL` closure surfaces a call error
(`fmt.Errorf("%w: %v", ErrEvaluatePAC, callErr)`, proxy.go line 143). -/
def findProxyCallErr (callErr : GoError) : GoError :=
  GoError.wrapMsg GoError.evaluatePAC callErr

/-!
Script loading size enforcement (`readPACScript` and the checks in
`NewPACProxy`).  The response body is a byte list; a declared content
length of `-1` models Go's "absent" `resp.ContentLength`. -/

/-- Source `readPACScript`: no limit when `maxSize <= 0`; otherwise read via
`io.LimitReader(r, maxSize+1)` and return `ErrPACScriptTooLarge` when more
than `maxSize` bytes came back. -/
def readPACScript (body : List Nat) (maxSize : Int) : Except GoError (List Nat) :=
  if maxSize ≤ 0 then Except.ok body
  else
    let data := body.take (maxSize + 1).toNat
    if (data.length : Int) > maxSize then Except.error GoError.scriptTooLarge
    else Except.ok data

/-- Number of body bytes the reader consumes: everything without a limit,
at most `maxSize + 1` through the `LimitReader` otherwise. -/
def readPACScriptConsumed (body : List Nat) (maxSize : Int) : Int :=
  if maxSize ≤ 0 then (body.length : Int)
  else min (body.length : Int) (maxSize + 1)

/-- The size-enforcement slice of source `NewPACProxy`, with the error
values it actually constructs: the declared-content-length pre-check (only
with the limit enabled) returns the bare `ErrPACScriptTooLarge`, while a
`readPACScript` failure is wrapped as
`fmt.Errorf("%w: %v", ErrReadPACScript, err)` — the inner error surviving
only as message text. -/
def loadPACScript (contentLength : Int) (body : List Nat) (maxScriptSize : Int) :
    Except GoError (List Nat) :=
  if maxScriptSize > 0 ∧ contentLength > maxScriptSize then
    Except.error GoError.scriptTooLarge
  else
    match readPACScript body maxScriptSize with
    | Except.error e => Except.error (GoError.wrapMsg GoError.readPAC e)
    | Except.ok data => Except.ok data

/-!
DNS helpers.  `lookupHost` is network I/O; its outcome is passed in as an
oracle value `Except Unit (List String)` (the address list on success). -/

/-- Source `isResolvable` binding: `_, err := r.lookupHost(host); err == nil`. -/
def isResolvable (lookupResult : Except Unit (List String)) : Bool :=
  match lookupResult with
  | Except.ok _ => true
  | Except.error _ => false

/-- The membership test the claim states for `isResolvable`: the lookup
succeeded with at least one address. -/
def claimResolvable (lookupResult : Except Unit (List String)) : Bool :=
  match lookupResult with
  | Except.ok addrs => !addrs.isEmpty
  | Except.error _ => false

/-- Source `dnsResolve` binding, for contrast: it does check the address
count (`err != nil || len(addrs) == 0` yields the empty string). -/
def dnsResolve (lookupResult : Except Unit (List String)) : String :=
  match lookupResult with
  | Except.ok (a :: _) => a
  | Except.ok [] => ""
  | Except.error _ => ""

/-!
Mutual-exclusion model of `evalWithTimeout` (the `scriptTimeout > 0` path).
Each in-flight call spawns one worker goroutine running, in program order:
`p.mu.Lock()` — enter the interpreter (`fn()`) — leave it — `p.mu.Unlock()`
— `resultCh <- result`.  A worker is abstracted to a program counter over
those five instructions; the timing goroutine (timer, re-check, `Interrupt`)
performs no lock or interpreter operation, so only the workers appear.
Program counters: 0 before `Lock`, 1 after `Lock`, 2 inside the interpreter,
3 after leaving it, 4 after `Unlock`, 5 after publishing the result. -/

/-- Shared state: one program counter per worker plus the mutex owner. -/
structure EvalState where
  pcs : List Nat
  lockOwner : Option Nat
deriving DecidableEq, Repr

/-- All workers before `Lock`, mutex free. -/
def initEvalState (k : Nat) : EvalState :=
  ⟨List.replicate k 0, none⟩

/-- One atomic step of some worker `i`: acquiring the mutex requires it to
be free; releasing it frees it; entering/leaving the interpreter and
publishing the result leave the mutex untouched. -/
inductive EvalStep : EvalState → EvalState → Prop where
  | lockAcq (s : EvalState) (i : Nat) (hpc : s.pcs.get? i = some 0)
      (hfree : s.lockOwner = none) :
      EvalStep s ⟨s.pcs.set i 1, some i⟩
  | vmEnter (s : EvalState) (i : Nat) (hpc : s.pcs.get? i = some 1) :
      EvalStep s ⟨s.pcs.set i 2, s.lockOwner⟩
  | vmExit (s : EvalState) (i : Nat) (hpc : s.pcs.get? i = some 2) :
      EvalStep s ⟨s.pcs.set i 3, s.lockOwner⟩
  | lockRel (s : EvalState) (i : Nat) (hpc : s.pcs.get? i = some 3) :
      EvalStep s ⟨s.pcs.set i 4, none⟩
  | publish (s : EvalState) (i : Nat) (hpc : s.pcs.get? i = some 4) :
      EvalStep s ⟨s.pcs.set i 5, s.lockOwner⟩

/-- States reachable by interleaving `k` concurrent calls on one instance. -/
inductive EvalReach (k : Nat) : EvalState → Prop where
  | init : EvalReach k (initEvalState k)
  | step {s t : EvalState} : EvalReach k s → EvalStep s t → EvalReach k t

/-- Lock invariant: a worker whose counter sits between `Lock` and `Unlock`
is the mutex owner, and the mutex owner's counter sits there. -/
def evalInv (s : EvalState) : Prop :=
  (∀ i pc, s.pcs.get? i = some pc → 1 ≤ pc → pc ≤ 3 → s.lockOwner = some i) ∧
  (∀ i, s.lockOwner = some i → ∃ pc, s.pcs.get? i = some pc ∧ 1 ≤ pc ∧ pc ≤ 3)

/-- The inclusive cyclic-range membership the claims describe: an ordered
pair is an ordinary inclusive interval, an inverted pair wraps around the
end of the domain. -/
def cyclicRangeSpec (cur start endV : Int) : Prop :=
  if start ≤ endV then start ≤ cur ∧ cur ≤ endV else cur ≥ start ∨ cur ≤ endV

instance (cur start endV : Int) : Decidable (cyclicRangeSpec cur start endV) := by
  unfold cyclicRangeSpec
  infer_instance

/-- Whether an argument takes the month-name branch of `parseDateArg`: it is
a string export whose `nameKey` hits the month table. -/
def isMonthNameArg (v : JSValue) : Bool :=
  match v with
  | JSValue.vStr s => (monthNames.lookup (nameKey s)).isSome
  | _ => false

/-!
Helper lemmas shared by several claim proofs. -/

theorem dayRangeMatches_iff (c s e : Int) :
    dayRangeMatches c s e = true ↔ cyclicRangeSpec c s e := by
  unfold dayRangeMatches cyclicRangeSpec
  split <;> simp

theorem monthRangeMatches_iff (c s e : Int) :
    monthRangeMatches c s e = true ↔ cyclicRangeSpec c s e := by
  unfold monthRangeMatches cyclicRangeSpec
  split <;> simp

theorem yearRangeMatches_iff (c s e : Int) :
    yearRangeMatches c s e = true ↔ cyclicRangeSpec c s e := by
  unfold yearRangeMatches cyclicRangeSpec
  split <;> simp

theorem timeRangeCompare_iff (c s e : Int) :
    timeRangeCompare c s e = true ↔ cyclicRangeSpec c s e := by
  unfold timeRangeCompare cyclicRangeSpec
  split <;> simp

theorem parseWeekdayArg_vInt {n : Int} (h0 : 0 ≤ n) (h6 : n ≤ 6) :
    parseWeekdayArg (JSValue.vInt n) = some n := by
  simp [parseWeekdayArg, weekdayIntFallback, parseIntArg, h0, h6]

theorem mapM_parseDateArg_none {args : List JSValue}
    (h : ∃ a ∈ args, parseDateArg a = none) : args.mapM parseDateArg = none := by
  induction args with
  | nil => obtain ⟨a, ha, _⟩ := h; cases ha
  | cons b t ih =>
      obtain ⟨a, ha, hn⟩ := h
      rcases List.mem_cons.mp ha with h | h
      · subst h
        rw [List.mapM_cons, hn]
        rfl
      · have ht := ih ⟨a, h, hn⟩
        cases hb : parseDateArg b with
        | none => rw [List.mapM_cons, hb]; rfl
        | some v => rw [List.mapM_cons, hb, ht]; rfl

theorem mapM_parseIntArg_map_vInt (vs : List Int) :
    (vs.map JSValue.vInt).mapM parseIntArg = some vs := by
  induction vs with
  | nil => rfl
  | cons h t ih =>
      rw [List.map_cons, List.mapM_cons]
      rw [show parseIntArg (JSValue.vInt h) = some h from rfl, ih]
      rfl

/-!
Invariant proof for the mutual-exclusion model. -/

theorem evalInv_init (k : Nat) : evalInv (initEvalState k) := by
  constructor
  · intro i pc hget h1 _
    simp only [initEvalState] at hget
    rw [List.get?_eq_getElem?, List.getElem?_replicate] at hget
    split at hget
    · cases hget; omega
    · cases hget
  · intro i h
    cases h

theorem evalInv_preserved {s t : EvalState} (hs : evalInv s) (st : EvalStep s t) :
    evalInv t := by
  cases st with
  | lockAcq i hpc hfree =>
      have hlen : i < s.pcs.length := by
        rw [List.get?_eq_getElem?] at hpc
        exact (List.getElem?_eq_some.mp hpc).1
      constructor
      · intro j pc hget h1 h3
        by_cases hij : i = j
        · subst hij; rfl
        · rw [List.get?_eq_getElem?, List.getElem?_set_ne hij, ← List.get?_eq_getElem?] at hget
          have := hs.1 j pc hget h1 h3
          rw [hfree] at this
          cases this
      · intro j hj
        cases hj
        refine ⟨1, ?_, by omega, by omega⟩
        simp [List.get?_eq_getElem?, List.getElem?_set_eq_of_lt, hlen]
  | vmEnter i hpc =>
      have hlen : i < s.pcs.length := by
        rw [List.get?_eq_getElem?] at hpc
        exact (List.getElem?_eq_some.mp hpc).1
      have howner : s.lockOwner = some i := hs.1 i 1 hpc (by omega) (by omega)
      constructor
      · intro j pc hget h1 h3
        by_cases hij : i = j
        · subst hij; exact howner
        · rw [List.get?_eq_getElem?, List.getElem?_set_ne hij, ← List.get?_eq_getElem?] at hget
          exact hs.1 j pc hget h1 h3
      · intro j hj
        have hij : i = j := by
          rw [howner] at hj
          cases hj
          rfl
        subst hij
        refine ⟨2, ?_, by omega, by omega⟩
        simp [List.get?_eq_getElem?, List.getElem?_set_eq_of_lt, hlen]
  | vmExit i hpc =>
      have hlen : i < s.pcs.length := by
        rw [List.get?_eq_getElem?] at hpc
        exact (List.getElem?_eq_some.mp hpc).1
      have howner : s.lockOwner = some i := hs.1 i 2 hpc (by omega) (by omega)
      constructor
      · intro j pc hget h1 h3
        by_cases hij : i = j
        · subst hij; exact howner
        · rw [List.get?_eq_getElem?, List.getElem?_set_ne hij, ← List.get?_eq_getElem?] at hget
          exact hs.1 j pc hget h1 h3
      · intro j hj
        have hij : i = j := by
          rw [howner] at hj
          cases hj
          rfl
        subst hij
        refine ⟨3, ?_, by omega, by omega⟩
        simp [List.get?_eq_getElem?, List.getElem?_set_eq_of_lt, hlen]
  | lockRel i hpc =>
      have howner : s.lockOwner = some i := hs.1 i 3 hpc (by omega) (by omega)
      constructor
      · intro j pc hget h1 h3
        by_cases hij : i = j
        · subst hij
          rw [List.get?_eq_getElem?] at hget
          have hlen : i < s.pcs.length := by
            rw [List.get?_eq_getElem?] at hpc
            exact (List.getElem?_eq_some.mp hpc).1
          rw [List.getElem?_set_eq_of_lt _ hlen] at hget
          cases hget
          omega
        · rw [List.get?_eq_getElem?, List.getElem?_set_ne hij, ← List.get?_eq_getElem?] at hget
          have := hs.1 j pc hget h1 h3
          rw [howner] at this
          cases this
          exact absurd rfl hij
      · intro j hj
        cases hj
  | publish i hpc =>
      constructor
      · intro j pc hget h1 h3
        by_cases hij : i = j
        · subst hij
          rw [List.get?_eq_getElem?] at hget
          have hlen : i < s.pcs.length := by
            rw [List.get?_eq_getElem?] at hpc
            exact (List.getElem?_eq_some.mp hpc).1
          rw [List.getElem?_set_eq_of_lt _ hlen] at hget
          cases hget
          omega
        · rw [List.get?_eq_getElem?, List.getElem?_set_ne hij, ← List.get?_eq_getElem?] at hget
          exact hs.1 j pc hget h1 h3
      · intro j hj
        obtain ⟨pc, hget, h1, h3⟩ := hs.2 j hj
        by_cases hij : i = j
        · subst hij
          rw [hpc] at hget
          cases hget
          omega
        · refine ⟨pc, ?_, h1, h3⟩
          rw [List.get?_eq_getElem?, List.getElem?_set_ne hij, ← List.get?_eq_getElem?]
          exact hget

theorem evalInv_reach {k : Nat} {s : EvalState} (h : EvalReach k s) : evalInv s := by
  induction h with
  | init => exact evalInv_init k
  | step _ st ih => exact evalInv_preserved ih st

/-- Claim C9: for every PACProxy instance, at most one script call executes
inside the JavaScript interpreter at a time — in every state reachable by
interleaving any number of concurrent calls, no two workers sit inside the
interpreter simultaneously — and a worker that has finished (program counter
past `Unlock`) never holds the lock, so the lock is released on every path,
the timeout path included (the timing goroutine owns no lock operation). -/
theorem claim_C9 (k : Nat) (s : EvalState) (h : EvalReach k s) :
    (∀ i j pci pcj, s.pcs.get? i = some pci → s.pcs.get? j = some pcj →
        pci = 2 → pcj = 2 → i = j) ∧
    (∀ i pc, s.pcs.get? i = some pc → 4 ≤ pc → s.lockOwner ≠ some i) := by
  have inv := evalInv_reach h
  constructor
  · intro i j pci pcj hi hj h2i h2j
    have o1 := inv.1 i pci hi (by omega) (by omega)
    have o2 := inv.1 j pcj hj (by omega) (by omega)
    rw [o1] at o2
    exact Option.some.inj o2
  · intro i pc hi h4 hcon
    obtain ⟨pc2, hj, hb1, hb3⟩ := inv.2 i hcon
    rw [hi] at hj
    cases hj
    omega

/-- Witness for C9: a complete one-worker run (lock, enter, exit, unlock,
publish) is reachable, and the theorem yields that the finished worker does
not hold the lock. -/
theorem claim_C9_witness :
    (EvalState.mk ((((((List.replicate 1 0).set 0 1).set 0 2).set 0 3).set 0 4).set 0 5)
        none).lockOwner ≠ some 0 := by
  have h0 : EvalReach 1 (initEvalState 1) := EvalReach.init
  have h1 := EvalReach.step h0 (EvalStep.lockAcq (initEvalState 1) 0 rfl rfl)
  have h2 := EvalReach.step h1 (EvalStep.vmEnter _ 0 rfl)
  have h3 := EvalReach.step h2 (EvalStep.vmExit _ 0 rfl)
  have h4 := EvalReach.step h3 (EvalStep.lockRel _ 0 rfl)
  have h5 := EvalReach.step h4 (EvalStep.publish _ 0 rfl)
  exact (claim_C9 1 _ h5).2 0 5 rfl (by omega)

/-- Claim C1: for valid weekday pairs in `weekdayRange`, same-kind
day/month/year pairs in `dateRange`, and the seconds bounds inside
`timeRange`, range membership is `start ≤ current ≤ end` when
`start ≤ end` and `current ≥ start ∨ current ≤ end` (cyclic wraparound)
when `start > end` — the two regimes packaged as `cyclicRangeSpec`. -/
theorem claim_C1 :
    (∀ current start endV : Int,
        dayRangeMatches current start endV = true ↔ cyclicRangeSpec current start endV) ∧
    (∀ current start endV : Int,
        monthRangeMatches current start endV = true ↔ cyclicRangeSpec current start endV) ∧
    (∀ current start endV : Int,
        yearRangeMatches current start endV = true ↔ cyclicRangeSpec current start endV) ∧
    (∀ current start endV : Int,
        timeRangeCompare current start endV = true ↔ cyclicRangeSpec current start endV) ∧
    (∀ w1 w2 nowWd : Int, 0 ≤ w1 → w1 ≤ 6 → 0 ≤ w2 → w2 ≤ 6 →
        (weekdayRangeMatches [JSValue.vInt w1, JSValue.vInt w2] nowWd = true ↔
          cyclicRangeSpec nowWd w1 w2)) ∧
    (∀ (a b : JSValue) (k : DateArgKind) (va vb : Int) (now : GoDate),
        parseDateArg a = some ⟨k, va⟩ → parseDateArg b = some ⟨k, vb⟩ →
        (dateRangeMatches [a, b] now = true ↔
          cyclicRangeSpec
            (match k with
             | DateArgKind.day => now.day
             | DateArgKind.month => now.month
             | DateArgKind.year => now.year) va vb)) := by
  refine ⟨dayRangeMatches_iff, monthRangeMatches_iff, yearRangeMatches_iff,
    timeRangeCompare_iff, ?_, ?_⟩
  · intro w1 w2 nowWd hw1a hw1b hw2a hw2b
    simp only [weekdayRangeMatches, parseWeekdayArg_vInt hw1a hw1b,
      parseWeekdayArg_vInt hw2a hw2b]
    unfold cyclicRangeSpec
    split <;> simp
  · intro a b k va vb now ha hb
    have hbm : List.mapM parseDateArg [b] = some [⟨k, vb⟩] := by
      rw [List.mapM_cons, hb]
      rfl
    have hm : List.mapM parseDateArg [a, b] = some [⟨k, va⟩, ⟨k, vb⟩] := by
      rw [List.mapM_cons, ha, hbm]
      rfl
    unfold dateRangeMatches
    rw [hm]
    cases k with
    | day => simpa using dayRangeMatches_iff now.day va vb
    | month => simpa using monthRangeMatches_iff now.month va vb
    | year => simpa using yearRangeMatches_iff now.year va vb

/-- Witness for C1: the wraparound regime at concrete inputs — weekday range
Friday..Monday matches Saturday, and `dateRange(25, 5)` matches the 28th. -/
theorem claim_C1_witness :
    weekdayRangeMatches [JSValue.vInt 5, JSValue.vInt 1] 6 = true ∧
    dateRangeMatches [JSValue.vInt 25, JSValue.vInt 5] ⟨2024, 6, 28⟩ = true := by
  constructor
  · exact (claim_C1.2.2.2.2.1 5 1 6 (by decide) (by decide) (by decide) (by decide)).mpr
      (by decide)
  · exact (claim_C1.2.2.2.2.2 (JSValue.vInt 25) (JSValue.vInt 5) DateArgKind.day 25 5
      ⟨2024, 6, 28⟩ (by decide) (by decide)).mpr (by decide)

/-- Claim C2: `dateRange` argument classification order — a string whose
three-letter key names a month is a month; otherwise a parsed integer in
1..31 is a day-of-month; otherwise any larger integer is a year normalized
by `normalizeYear` (two-digit values map to 1900+value); a non-positive
integer or an unparseable argument classifies as nothing, and one such
argument makes the whole `dateRange` call return false. -/
theorem claim_C2 :
    (∀ s m, monthNames.lookup (nameKey s) = some m →
        parseDateArg (JSValue.vStr s) = some ⟨DateArgKind.month, m⟩) ∧
    (∀ v n, isMonthNameArg v = false → parseIntArg v = some n → 0 < n → n ≤ 31 →
        parseDateArg v = some ⟨DateArgKind.day, n⟩) ∧
    (∀ v n, isMonthNameArg v = false → parseIntArg v = some n → 31 < n →
        parseDateArg v = some ⟨DateArgKind.year, normalizeYear n⟩) ∧
    (∀ n : Int, 0 ≤ n → n < 100 → normalizeYear n = 1900 + n) ∧
    (∀ n : Int, 100 ≤ n → normalizeYear n = n) ∧
    (∀ v n, isMonthNameArg v = false → parseIntArg v = some n → n ≤ 0 →
        parseDateArg v = none) ∧
    (∀ v, isMonthNameArg v = false → parseIntArg v = none → parseDateArg v = none) ∧
    (∀ (args : List JSValue) (now : GoDate), (∃ a ∈ args, parseDateArg a = none) →
        dateRangeMatches args now = false) := by
  have hfall : ∀ v, isMonthNameArg v = false → parseDateArg v = dateIntFallback v := by
    intro v hv
    cases v with
    | vStr s =>
        simp only [isMonthNameArg] at hv
        cases hlook : List.lookup (nameKey s) monthNames with
        | none => simp [parseDateArg, hlook]
        | some m => simp [hlook] at hv
    | vInt n => rfl
    | vNum s => rfl
  refine ⟨?_, ?_, ?_, ?_, ?_, ?_, ?_, ?_⟩
  · intro s m hm
    simp [parseDateArg, hm]
  · intro v n hv hn h0 h31
    rw [hfall v hv]
    simp [dateIntFallback, hn, (show ¬n ≤ 0 by omega), h31]
  · intro v n hv hn h31
    rw [hfall v hv]
    simp [dateIntFallback, hn, (show ¬n ≤ 0 by omega), (show ¬n ≤ 31 by omega)]
  · intro n h0 h100
    simp [normalizeYear, h0, h100]
  · intro n h100
    simp [normalizeYear, (show ¬(0 ≤ n ∧ n < 100) by omega)]
  · intro v n hv hn hn0
    rw [hfall v hv]
    simp [dateIntFallback, hn, hn0]
  · intro v hv hn
    rw [hfall v hv]
    simp [dateIntFallback, hn]
  · intro args now h
    unfold dateRangeMatches
    rw [mapM_parseDateArg_none h]

/-- Witness for C2: each classification branch at a concrete input, and a
`dateRange` call rejected by its non-positive argument. -/
theorem claim_C2_witness :
    parseDateArg (JSValue.vStr "October") = some ⟨DateArgKind.month, 10⟩ ∧
    parseDateArg (JSValue.vInt 31) = some ⟨DateArgKind.day, 31⟩ ∧
    parseDateArg (JSValue.vInt 95) = some ⟨DateArgKind.year, normalizeYear 95⟩ ∧
    normalizeYear 95 = 1995 ∧
    parseDateArg (JSValue.vInt (-2)) = none ∧
    dateRangeMatches [JSValue.vInt 0] ⟨2024, 1, 1⟩ = false := by
  refine ⟨claim_C2.1 "October" 10 (by decide),
    claim_C2.2.1 (JSValue.vInt 31) 31 (by decide) (by decide) (by decide) (by decide),
    claim_C2.2.2.1 (JSValue.vInt 95) 95 (by decide) (by decide) (by decide),
    ?_,
    claim_C2.2.2.2.2.2.1 (JSValue.vInt (-2)) (-2) (by decide) (by decide) (by decide),
    claim_C2.2.2.2.2.2.2.2 [JSValue.vInt 0] ⟨2024, 1, 1⟩
      ⟨JSValue.vInt 0, List.mem_singleton.mpr rfl, by decide⟩⟩
  exact claim_C2.2.2.2.1 95 (by decide) (by decide)

theorem splitArgs_gmt (args : List JSValue) (v : JSValue) (hv : isGMTArg v = true) :
    splitArgsAndLocation (args ++ [v]) = (args, PACLoc.utcTime) := by
  unfold splitArgsAndLocation
  rw [List.getLast?_concat]
  simp [hv]

/-- Claim C3: `timeRange` strips an optional trailing GMT argument, then
dispatches purely on argument count — one argument is an exact-hour test,
two give the wrapping seconds range `[h1*3600, h2*3600+3599]` (true at hour
23 and false at hour 12 for `timeRange(22,2)`), three an exact h:m:s test,
four the range `[h1*3600+m1*60, h2*3600+m2*60+59]`, six an inclusive h:m:s
range; hours must be 0–23 and minutes/seconds 0–59, and any invalid value or
any other argument count (zero, five, seven or more) yields false. -/
theorem claim_C3 :
    (∀ (args : List JSValue) (v : JSValue), isGMTArg v = true →
        splitArgsAndLocation (args ++ [v]) = (args, PACLoc.utcTime)) ∧
    (∀ (args : List JSValue) (v : JSValue) (nowLocal nowUTC : TimeOfDay),
        isGMTArg v = true →
        timeRangeBinding (args ++ [v]) nowLocal nowUTC =
          (if args.isEmpty then false else timeRangeMatches args nowUTC)) ∧
    (∀ (now : TimeOfDay) (h : Int),
        timeRangeMatches [JSValue.vInt h] now = true ↔
          (0 ≤ h ∧ h ≤ 23) ∧ now.hour = h) ∧
    (∀ (now : TimeOfDay) (h1 h2 : Int),
        timeRangeMatches [JSValue.vInt h1, JSValue.vInt h2] now = true ↔
          (0 ≤ h1 ∧ h1 ≤ 23) ∧ (0 ≤ h2 ∧ h2 ≤ 23) ∧
            cyclicRangeSpec (nowSecondsOf now) (h1 * 3600) (h2 * 3600 + 3599)) ∧
    (∀ (now : TimeOfDay) (h m s : Int),
        timeRangeMatches [JSValue.vInt h, JSValue.vInt m, JSValue.vInt s] now = true ↔
          (0 ≤ h ∧ h ≤ 23) ∧ (0 ≤ m ∧ m ≤ 59) ∧ (0 ≤ s ∧ s ≤ 59) ∧
            (now.hour = h ∧ now.minute = m ∧ now.second = s)) ∧
    (∀ (now : TimeOfDay) (h1 m1 h2 m2 : Int),
        timeRangeMatches [JSValue.vInt h1, JSValue.vInt m1, JSValue.vInt h2,
            JSValue.vInt m2] now = true ↔
          (0 ≤ h1 ∧ h1 ≤ 23) ∧ (0 ≤ m1 ∧ m1 ≤ 59) ∧
            (0 ≤ h2 ∧ h2 ≤ 23) ∧ (0 ≤ m2 ∧ m2 ≤ 59) ∧
            cyclicRangeSpec (nowSecondsOf now) (h1 * 3600 + m1 * 60)
              (h2 * 3600 + m2 * 60 + 59)) ∧
    (∀ (now : TimeOfDay) (h1 m1 s1 h2 m2 s2 : Int),
        timeRangeMatches [JSValue.vInt h1, JSValue.vInt m1, JSValue.vInt s1,
            JSValue.vInt h2, JSValue.vInt m2, JSValue.vInt s2] now = true ↔
          (0 ≤ h1 ∧ h1 ≤ 23) ∧ (0 ≤ m1 ∧ m1 ≤ 59) ∧ (0 ≤ s1 ∧ s1 ≤ 59) ∧
            (0 ≤ h2 ∧ h2 ≤ 23) ∧ (0 ≤ m2 ∧ m2 ≤ 59) ∧ (0 ≤ s2 ∧ s2 ≤ 59) ∧
            cyclicRangeSpec (nowSecondsOf now) (h1 * 3600 + m1 * 60 + s1)
              (h2 * 3600 + m2 * 60 + s2)) ∧
    (∀ now : TimeOfDay, timeRangeMatches [] now = false) ∧
    (∀ (now : TimeOfDay) (a1 a2 a3 a4 a5 : Int) (rest : List Int), rest.length ≠ 1 →
        timeRangeMatches ((a1 :: a2 :: a3 :: a4 :: a5 :: rest).map JSValue.vInt) now =
          false) ∧
    timeRangeMatches [JSValue.vInt 22, JSValue.vInt 2] ⟨23, 0, 0⟩ = true ∧
    timeRangeMatches [JSValue.vInt 22, JSValue.vInt 2] ⟨12, 0, 0⟩ = false := by
  refine ⟨splitArgs_gmt, ?_, ?_, ?_, ?_, ?_, ?_, ?_, ?_, by decide, by decide⟩
  · intro args v nowLocal nowUTC hv
    simp only [timeRangeBinding, splitArgs_gmt args v hv]
  · intro now h
    show (if validHour h then decide (now.hour = h) else false) = true ↔ _
    by_cases hv : 0 ≤ h ∧ h ≤ 23 <;> simp [validHour, hv]
  · intro now h1 h2
    show (if validHour h1 && validHour h2 then
        timeRangeCompare (nowSecondsOf now) (h1 * 3600) (h2 * 3600 + 3599)
      else false) = true ↔ _
    by_cases hv1 : 0 ≤ h1 ∧ h1 ≤ 23 <;> by_cases hv2 : 0 ≤ h2 ∧ h2 ≤ 23 <;>
      simp [validHour, hv1, hv2, timeRangeCompare_iff]
  · intro now h m s
    show (if validTime h m s then
        decide (now.hour = h ∧ now.minute = m ∧ now.second = s)
      else false) = true ↔ _
    by_cases hv1 : 0 ≤ h ∧ h ≤ 23 <;> by_cases hv2 : 0 ≤ m ∧ m ≤ 59 <;>
      by_cases hv3 : 0 ≤ s ∧ s ≤ 59 <;>
      simp [validTime, validHour, hv1, hv2, hv3]
  · intro now h1 m1 h2 m2
    show (if validTime h1 m1 0 && validTime h2 m2 0 then
        timeRangeCompare (nowSecondsOf now) (h1 * 3600 + m1 * 60)
          (h2 * 3600 + m2 * 60 + 59)
      else false) = true ↔ _
    by_cases hv1 : 0 ≤ h1 ∧ h1 ≤ 23 <;> by_cases hv2 : 0 ≤ m1 ∧ m1 ≤ 59 <;>
      by_cases hv3 : 0 ≤ h2 ∧ h2 ≤ 23 <;> by_cases hv4 : 0 ≤ m2 ∧ m2 ≤ 59 <;>
      simp [validTime, validHour, hv1, hv2, hv3, hv4, timeRangeCompare_iff]
  · intro now h1 m1 s1 h2 m2 s2
    show (if validTime h1 m1 s1 && validTime h2 m2 s2 then
        timeRangeCompare (nowSecondsOf now) (h1 * 3600 + m1 * 60 + s1)
          (h2 * 3600 + m2 * 60 + s2)
      else false) = true ↔ _
    by_cases hv1 : 0 ≤ h1 ∧ h1 ≤ 23 <;> by_cases hv2 : 0 ≤ m1 ∧ m1 ≤ 59 <;>
      by_cases hv3 : 0 ≤ s1 ∧ s1 ≤ 59 <;> by_cases hv4 : 0 ≤ h2 ∧ h2 ≤ 23 <;>
      by_cases hv5 : 0 ≤ m2 ∧ m2 ≤ 59 <;> by_cases hv6 : 0 ≤ s2 ∧ s2 ≤ 59 <;>
      simp [validTime, validHour, hv1, hv2, hv3, hv4, hv5, hv6, timeRangeCompare_iff]
  · intro now
    rfl
  · intro now a1 a2 a3 a4 a5 rest hrest
    cases rest with
    | nil => rfl
    | cons r rs =>
        cases rs with
        | nil => exact absurd rfl hrest
        | cons r2 rs2 =>
            simp only [timeRangeMatches, mapM_parseIntArg_map_vInt]
            rfl

/-- Witness for C3: the GMT marker is stripped at a concrete call, and a
five-integer argument list is rejected. -/
theorem claim_C3_witness :
    splitArgsAndLocation [JSValue.vInt 22, JSValue.vInt 2, JSValue.vStr "GMT"] =
      ([JSValue.vInt 22, JSValue.vInt 2], PACLoc.utcTime) ∧
    timeRangeMatches [JSValue.vInt 1, JSValue.vInt 2, JSValue.vInt 3, JSValue.vInt 4,
        JSValue.vInt 5] ⟨1, 2, 3⟩ = false := by
  constructor
  · exact claim_C3.1 [JSValue.vInt 22, JSValue.vInt 2] (JSValue.vStr "GMT") (by decide)
  · exact claim_C3.2.2.2.2.2.2.2.2.1 ⟨1, 2, 3⟩ 1 2 3 4 5 [] (by decide)

theorem loadPACScript_overLimit (maxSize contentLength : Int) (body : List Nat)
    (hmax : 0 < maxSize) (hbody : maxSize < (body.length : Int))
    (hdecl : contentLength = -1 ∨ contentLength ≤ maxSize) :
    readPACScript body maxSize = Except.error GoError.scriptTooLarge ∧
    loadPACScript contentLength body maxSize =
      Except.error (GoError.wrapMsg GoError.readPAC GoError.scriptTooLarge) ∧
    readPACScriptConsumed body maxSize ≤ maxSize + 1 := by
  have hread : readPACScript body maxSize = Except.error GoError.scriptTooLarge := by
    unfold readPACScript
    rw [if_neg (by omega)]
    rw [if_pos]
    rw [List.length_take]
    omega
  refine ⟨hread, ?_, ?_⟩
  · unfold loadPACScript
    rw [if_neg (by omega), hread]
  · unfold readPACScriptConsumed
    rw [if_neg (by omega)]
    exact min_le_right _ _

/-- Claim C4 is right that an over-limit body is always detected, within at
most `MaxScriptSize + 1` read bytes, and `readPACScript` itself returns
`ErrPACScriptTooLarge` — but the code mislabels the kind the load fails
with: when the declared content length is absent (`-1`) or understates the
body, the pre-check does not fire and `NewPACProxy` wraps the read error as
`fmt.Errorf("%w: %v", ErrReadPACScript, err)` (proxy.go line 88), whose
`%v` keeps the size error only as message text, so `errors.Is` against
`ErrPACScriptTooLarge` is false and the load fails with the
`ErrReadPACScript` kind — unlike the declared-length pre-check, which
surfaces the bare `ErrPACScriptTooLarge`. -/
theorem claim_C4_divergence :
    readPACScript [10, 11, 12, 13, 14] 4 = Except.error GoError.scriptTooLarge ∧
    loadPACScript (-1) [10, 11, 12, 13, 14] 4 =
      Except.error (GoError.wrapMsg GoError.readPAC GoError.scriptTooLarge) ∧
    errorsIs (GoError.wrapMsg GoError.readPAC GoError.scriptTooLarge)
        GoError.scriptTooLarge = false ∧
    errorsIs (GoError.wrapMsg GoError.readPAC GoError.scriptTooLarge)
        GoError.readPAC = true ∧
    readPACScriptConsumed [10, 11, 12, 13, 14] 4 ≤ 4 + 1 ∧
    loadPACScript 6 [10, 11] 4 = Except.error GoError.scriptTooLarge ∧
    errorsIs GoError.scriptTooLarge GoError.scriptTooLarge = true := by
  have h := loadPACScript_overLimit 4 (-1) [10, 11, 12, 13, 14] (by decide) (by decide)
    (Or.inl rfl)
  exact ⟨h.1, h.2.1, rfl, rfl, h.2.2, rfl, rfl⟩

theorem parseTokens_findSome (l : List String) :
    parseTokens l =
      match l.findSome? (fun tok => amendedTokenClass (goTrim tok)) with
      | some r => r
      | none => ParseResult.noValid := by
  induction l with
  | nil => rfl
  | cons hd t ih =>
      rw [List.findSome?_cons]
      by_cases h1 : strHasPre (goTrim hd) "DIRECT"
      · simp [parseTokens, amendedTokenClass, h1]
      · by_cases h2 : strHasPre (goTrim hd) "PROXY"
        · simp [parseTokens, amendedTokenClass, h1, h2]
        · by_cases h3 : strHasPre (goTrim hd) "SOCKS"
          · simp [parseTokens, amendedTokenClass, h1, h2, h3]
          · simp [parseTokens, amendedTokenClass, h1, h2, h3, ih]

/-- Counterexample to C5 as stated: the source tests the prefixes `PROXY` /
`SOCKS` without a trailing space, so the token `PROXYx` — which the claim
says is unrecognized and must lead to `ErrNoValidProxy` — actually yields
the endpoint `http://PROXYx`. -/
theorem claim_C5_counterexample :
    proxyStringParse "PROXYx" = ParseResult.proxyURL "http://PROXYx" ∧
    proxyStringParseClaim "PROXYx" = ParseResult.noValid ∧
    proxyStringParse "PROXYx" ≠ proxyStringParseClaim "PROXYx" := by
  refine ⟨by decide, by decide, by decide⟩

/-- Claim C5 (amended): `Parse` splits on `;`, trims each token, and the
first token recognized in order — prefix `DIRECT` giving "no proxy", prefix
`PROXY` (no trailing space required) giving `http://` plus the token with a
`"PROXY "` prefix stripped when present, prefix `SOCKS` likewise giving
`socks5://` — wins; unrecognized tokens are skipped without error and an
exhausted list reports `ErrNoValidProxy`. -/
theorem claim_C5_amended :
    (∀ ps : String,
        proxyStringParse ps =
          match ((splitSemi ps.data).map (fun cs => String.mk cs)).findSome?
              (fun tok => amendedTokenClass (goTrim tok)) with
          | some r => r
          | none => ParseResult.noValid) ∧
    proxyStringParse "PROXY a:1; PROXY b:2" = ParseResult.proxyURL "http://a:1" ∧
    proxyStringParse "DIRECT" = ParseResult.direct ∧
    proxyStringParse "SOCKS s:1" = ParseResult.proxyURL "socks5://s:1" ∧
    proxyStringParse "BOGUS x" = ParseResult.noValid := by
  refine ⟨?_, by decide, by decide, by decide, by decide⟩
  intro ps
  exact parseTokens_findSome _

/-- Counterexample to C6 as stated: `isResolvable` tests only `err == nil`
and never inspects the address count, so an error-free lookup that returns
zero addresses — on which the claim requires false — yields true. -/
theorem claim_C6_counterexample :
    isResolvable (Except.ok ([] : List String)) = true ∧
    claimResolvable (Except.ok ([] : List String)) = false := by
  exact ⟨rfl, rfl⟩

/-- Claim C6 (amended): `isResolvable` returns true if and only if the
forward DNS lookup returns without error; the number of addresses returned
is not examined (unlike `dnsResolve`, which is empty for a zero-address
success). -/
theorem claim_C6_amended :
    (∀ r : Except Unit (List String),
        isResolvable r = true ↔ ∃ addrs, r = Except.ok addrs) ∧
    dnsResolve (Except.ok ([] : List String)) = "" := by
  constructor
  · intro r
    cases r <;> simp [isResolvable]
  · rfl

/-- Claim C7: config normalization is a total function applied to the plain
config value — for each of the four numeric options independently, zero maps
to its built-in default (1 MiB, 5 s, 2 s, 10 s), a negative value maps to
zero (the disabled state), and a positive value is kept; a nil config
pointer behaves exactly like the zero-valued struct. -/
theorem claim_C7 :
    (∀ cfg : PACProxyConfig,
        (normalizePACProxyConfig (some cfg)).httpTimeout =
          (if cfg.httpTimeout = 0 then defaultHTTPTimeout
           else if cfg.httpTimeout < 0 then 0 else cfg.httpTimeout)) ∧
    (∀ cfg : PACProxyConfig,
        (normalizePACProxyConfig (some cfg)).scriptTimeout =
          (if cfg.scriptTimeout = 0 then defaultScriptTimeout
           else if cfg.scriptTimeout < 0 then 0 else cfg.scriptTimeout)) ∧
    (∀ cfg : PACProxyConfig,
        (normalizePACProxyConfig (some cfg)).dnsLookupTimeout =
          (if cfg.dnsLookupTimeout = 0 then defaultDNSLookupTimeout
           else if cfg.dnsLookupTimeout < 0 then 0 else cfg.dnsLookupTimeout)) ∧
    (∀ cfg : PACProxyConfig,
        (normalizePACProxyConfig (some cfg)).maxScriptSize =
          (if cfg.maxScriptSize = 0 then defaultMaxScriptSize
           else if cfg.maxScriptSize < 0 then 0 else cfg.maxScriptSize)) ∧
    normalizePACProxyConfig none = normalizePACProxyConfig (some zeroPACProxyConfig) ∧
    defaultMaxScriptSize = 1048576 ∧
    defaultScriptTimeout = 5 * 1000000000 ∧
    defaultDNSLookupTimeout = 2 * 1000000000 ∧
    defaultHTTPTimeout = 10 * 1000000000 ∧
    (∀ body : List Nat, readPACScript body 0 = Except.ok body) := by
  exact ⟨fun cfg => rfl, fun cfg => rfl, fun cfg => rfl, fun cfg => rfl, rfl, rfl, rfl,
    rfl, rfl, fun body => rfl⟩

/-- Claim C8 is the intended protocol, but the code breaks its final clause:
the `FindProxyForURL` closure wraps a goja interrupt error with
`fmt.Errorf("%w: %v", ErrEvaluatePAC, callErr)`, whose `%v` keeps the
interrupted error only as message text, so `errors.As` inside
`normalizePACError` cannot see it — the timed-out evaluation surfaces as the
`ErrEvaluatePAC` kind, not `ErrPACScriptTimeout` (while the same
normalization does fire on an unwrapped interrupt, and a nil worker error is
correctly replaced by the timeout error). -/
theorem claim_C8_divergence :
    evalWithTimeoutErr ⟨none, none,
        some (findProxyCallErr (GoError.interruptedBy GoError.scriptTimeout))⟩ =
      some (GoError.wrapMsg GoError.evaluatePAC
        (GoError.interruptedBy GoError.scriptTimeout)) ∧
    errorsIs (GoError.wrapMsg GoError.evaluatePAC
        (GoError.interruptedBy GoError.scriptTimeout)) GoError.evaluatePAC = true ∧
    errorsIs (GoError.wrapMsg GoError.evaluatePAC
        (GoError.interruptedBy GoError.scriptTimeout)) GoError.scriptTimeout = false ∧
    normalizePACError (some (GoError.interruptedBy GoError.scriptTimeout)) =
      some GoError.scriptTimeout ∧
    evalWithTimeoutErr ⟨none, none, none⟩ = some GoError.scriptTimeout ∧
    evalWithTimeoutErr ⟨some (some (GoError.interruptedBy GoError.scriptTimeout)),
        none, none⟩ = some GoError.scriptTimeout := by
  exact ⟨rfl, rfl, rfl, rfl, rfl, rfl⟩

theorem lookup_len3_none (s : String) (hs : s.data.length ≠ 3) :
    ∀ l : List (String × Int), (∀ p ∈ l, p.1.data.length = 3) →
      List.lookup s l = none := by
  intro l
  induction l with
  | nil => intro _; rfl
  | cons p t ih =>
      intro h3
      obtain ⟨k, v⟩ := p
      have hk : k.data.length = 3 := h3 (k, v) (List.mem_cons_self _ _)
      have hne : (s == k) = false := beq_eq_false_iff_ne.mpr (fun he => hs (he ▸ hk))
      rw [List.lookup_cons, hne]
      exact ih (fun q hq => h3 q (List.mem_cons_of_mem _ hq))

/-- Claim C10: name parsing in `weekdayRange`/`dateRange` trims, uppercases
and truncates to the first three characters before the table lookup, so any
string whose key hits the table is accepted as that name ("Wednesday" is
Wednesday, "Monkey" is Monday), while a string whose trimmed uppercased form
is shorter than three characters can never match a name token (every table
key has exactly three characters). -/
theorem claim_C10 :
    (∀ s d, weekdayNames.lookup (nameKey s) = some d →
        parseWeekdayArg (JSValue.vStr s) = some d) ∧
    (∀ s m, monthNames.lookup (nameKey s) = some m →
        parseDateArg (JSValue.vStr s) = some ⟨DateArgKind.month, m⟩) ∧
    (∀ s : String, (goToUpper (goTrim s)).data.length < 3 →
        weekdayNames.lookup (nameKey s) = none ∧
        monthNames.lookup (nameKey s) = none) ∧
    nameKey "Wednesday" = "WED" ∧
    parseWeekdayArg (JSValue.vStr "Wednesday") = some 3 ∧
    nameKey "Monkey" = "MON" ∧
    parseWeekdayArg (JSValue.vStr "Monkey") = some 1 ∧
    parseDateArg (JSValue.vStr "January") = some ⟨DateArgKind.month, 1⟩ ∧
    parseWeekdayArg (JSValue.vStr "Mo") = none := by
  refine ⟨?_, ?_, ?_, by decide, by decide, by decide, by decide, by decide, by decide⟩
  · intro s d hd
    simp [parseWeekdayArg, hd]
  · intro s m hm
    simp [parseDateArg, hm]
  · intro s hlen
    have hk : nameKey s = goToUpper (goTrim s) := by
      unfold nameKey goTruncate3
      rw [if_neg (by omega)]
    rw [hk]
    exact ⟨lookup_len3_none _ (by omega) _ (by decide),
      lookup_len3_none _ (by omega) _ (by decide)⟩

/-- Witness for C10: a full weekday name is accepted through the table hit,
and a two-character string misses both tables. -/
theorem claim_C10_witness :
    parseWeekdayArg (JSValue.vStr "Sunday") = some 0 ∧
    weekdayNames.lookup (nameKey "ab") = none ∧
    monthNames.lookup (nameKey "ab") = none := by
  refine ⟨claim_C10.1 "Sunday" 0 (by decide), ?_, ?_⟩
  · exact (claim_C10.2.2.1 "ab" (by decide)).1
  · exact (claim_C10.2.2.1 "ab" (by decide)).2
